import Mathlib

/-!
# Samvad chat server: the real-time messaging path of `server.js`

A shallow embedding of the two handlers that move chat messages:

* the Socket.IO `send_message` handler (insert, sender lookup, payload, emit, catch), and
* the REST handler `GET /api/messages/:groupId` (join, order, limit, reverse).

The MySQL store is modelled from the `CREATE TABLE` statements of `setupDatabase`:
primary keys, `NOT NULL`, `FOREIGN KEY` and `AUTO_INCREMENT` are the only constraints used.
A `pool.query` call may also reject for a reason outside the schema (a lost connection);
that is the `fault` argument of each query.
-/

namespace Samvad

/-! ## Tables -/

/-- Row of table `users`; `display_name VARCHAR(100)` is nullable. -/
structure UserRow where
  id : Nat
  username : String
  display_name : Option String
  deriving DecidableEq

/-- Row of table `chat_groups`. -/
structure GroupRow where
  id : Nat
  name : String
  created_by : Option Nat
  anonymous_enabled : Bool
  deriving DecidableEq

/-- Row of table `group_members`. -/
structure MemberRow where
  group_id : Nat
  user_id : Nat
  deriving DecidableEq

/-- Row of table `messages`. `created_at` is the store's `CURRENT_TIMESTAMP`, in seconds. -/
structure MessageRow where
  id : Nat
  group_id : Nat
  user_id : Nat
  message : String
  is_anonymous : Bool
  created_at : Nat
  deriving DecidableEq

/-- The database `samvad_chat`: its four tables, rows in insertion order, and the
`AUTO_INCREMENT` counter of `messages`. -/
structure Db where
  users : List UserRow
  chat_groups : List GroupRow
  group_members : List MemberRow
  messages : List MessageRow
  messages_auto_increment : Nat
  deriving DecidableEq

/-! ## Wire values -/

/-- Payload of the client event `send_message`. `message` and `is_anonymous` may be
missing from the object (`undefined` after destructuring). -/
structure SendData where
  group_id : Nat
  user_id : Nat
  message : Option String
  is_anonymous : Option Bool
  deriving DecidableEq

/-- JavaScript truthiness of an optional boolean: `undefined` is falsy. -/
def truthy : Option Bool → Bool
  | none => false
  | some b => b

/-- The object `messageData` built at lines 248-257. -/
structure MessageData where
  id : Nat
  group_id : Nat
  user_id : Nat
  message : Option String
  is_anonymous : Option Bool
  display_name : Option String
  username : String
  created_at : Nat
  deriving DecidableEq

/-- One `emit` call of the handler.
`new_message room payload` is `io.to("group_" + room).emit("new_message", payload)`: the
room is named by the group id it is built from.
`message_error socket error` is `socket.emit("message_error", ...)` on the connection
whose id is `socket`, with the object whose only field is `error`. -/
inductive Emit where
  | new_message (room : Nat) (payload : MessageData)
  | message_error (socket : Nat) (error : String)
  deriving DecidableEq

/-- What the handler cannot decide itself: whether a query is rejected for a reason outside
the schema, the store clock at the insert, and the server clock read by `new Date()`. -/
structure Env where
  insertFault : Option String
  lookupFault : Option String
  current_timestamp : Nat
  date : Nat
  deriving DecidableEq

/-! ## The two queries of `send_message` -/

/-- Run `INSERT INTO messages (group_id, user_id, message, is_anonymous) VALUES (?, ?, ?, ?)`.
An `undefined` parameter is sent as `NULL`, which `message TEXT NOT NULL` rejects; the two
foreign keys reject a `group_id` without a `chat_groups` row and a `user_id` without a
`users` row. On success the row gets the next `AUTO_INCREMENT` id, returned as `insertId`. -/
def insertMessage (db : Db) (fault : Option String) (ts : Nat)
    (group_id user_id : Nat) (message : Option String) (is_anonymous : Bool) :
    Except String (Db × Nat) :=
  match fault with
  | some e => .error e
  | none =>
    match message with
    | none => .error "Column message cannot be null"
    | some body =>
      if db.chat_groups.any (fun g => g.id == group_id)
          && db.users.any (fun u => u.id == user_id) then
        let insertId := db.messages_auto_increment
        .ok ({ db with
                messages := db.messages ++
                  [⟨insertId, group_id, user_id, body, is_anonymous, ts⟩]
                messages_auto_increment := insertId + 1 }, insertId)
      else .error "Cannot add or update a child row: a foreign key constraint fails"

/-- Result row of `SELECT display_name, username FROM users WHERE id = ?`. -/
structure IdentityRow where
  display_name : Option String
  username : String
  deriving DecidableEq

/-- Run `SELECT display_name, username FROM users WHERE id = ?`. -/
def selectIdentity (db : Db) (fault : Option String) (user_id : Nat) :
    Except String (List IdentityRow) :=
  match fault with
  | some e => .error e
  | none =>
    .ok ((db.users.filter (fun u => u.id == user_id)).map
      (fun u => ⟨u.display_name, u.username⟩))

/-! ## The `send_message` handler -/

/-- The object literal of lines 248-257. The conditional reads `users[0]` only when
`is_anonymous` is falsy; with an empty result that read throws a `TypeError`. -/
def messageData (insertId : Nat) (data : SendData) (users : List IdentityRow) (date : Nat) :
    Except String MessageData :=
  if truthy data.is_anonymous then
    .ok { id := insertId, group_id := data.group_id, user_id := data.user_id,
          message := data.message, is_anonymous := data.is_anonymous,
          display_name := some "Anonymous", username := "Anonymous", created_at := date }
  else
    match users.head? with
    | none => .error "Cannot read properties of undefined (reading display_name)"
    | some u =>
      .ok { id := insertId, group_id := data.group_id, user_id := data.user_id,
            message := data.message, is_anonymous := data.is_anonymous,
            display_name := u.display_name, username := u.username, created_at := date }

/-- State of the store after one run of a handler, and the events it emitted, in order. -/
structure Outcome where
  db : Db
  emits : List Emit
  deriving DecidableEq

/-- The code after the first `await`, given the insert result: sender lookup, payload,
broadcast; any throw lands in the `catch`, which reports to the sending socket. -/
def afterInsert (db : Db) (lookupFault : Option String) (date : Nat) (socket : Nat)
    (data : SendData) (insertId : Nat) : Outcome :=
  match selectIdentity db lookupFault data.user_id with
  | .error e => ⟨db, [Emit.message_error socket e]⟩
  | .ok users =>
    match messageData insertId data users date with
    | .error e => ⟨db, [Emit.message_error socket e]⟩
    | .ok payload => ⟨db, [Emit.new_message data.group_id payload]⟩

/-- The handler `socket.on("send_message", async (data) => ...)`, lines 233-265, run
without interleaving: `socket` is the id of the connection that sent `data`. -/
def send_message (db : Db) (env : Env) (socket : Nat) (data : SendData) : Outcome :=
  match insertMessage db env.insertFault env.current_timestamp data.group_id data.user_id
      data.message (data.is_anonymous.getD false) with
  | .error e => ⟨db, [Emit.message_error socket e]⟩
  | .ok (db1, insertId) => afterInsert db1 env.lookupFault env.date socket data insertId

/-- What arrives as the argument `data` of the handler: `nullish` is `null` or `undefined`
(an event sent without payload); `fields` is any other value, given by what the
destructuring of line 234 reads from it, a missing or `null` field being `none`. -/
inductive Payload where
  | nullish
  | fields (group_id user_id : Option Nat) (message : Option String)
      (is_anonymous : Option Bool)
  deriving DecidableEq

/-- The whole callback of `socket.on("send_message", ...)`, lines 233-265.
The destructuring of line 234 stands before the `try` of line 236: on a `nullish` payload it
throws, the callback ends there and nothing is emitted.
A missing `group_id` or `user_id` is bound as `NULL`, which the `NOT NULL` column rejects,
so the insert fails and the `catch` reports it. -/
def on_send_message (db : Db) (env : Env) (socket : Nat) : Payload → Outcome
  | .nullish => ⟨db, []⟩
  | .fields (some group_id) (some user_id) message is_anonymous =>
    send_message db env socket ⟨group_id, user_id, message, is_anonymous⟩
  | .fields _ _ _ _ =>
    ⟨db, [Emit.message_error socket (env.insertFault.getD "Column cannot be null")]⟩

/-- The flag `anonymous_enabled` of the group with id `group_id` (false when there is no
such group). The handlers never read it; it is the spec's `groupAllowsAnonymity`. -/
def groupAllowsAnonymity (db : Db) (group_id : Nat) : Bool :=
  db.chat_groups.any (fun g => g.id == group_id && g.anonymous_enabled)

/-- Whether `group_members` holds the pair; the spec's `verifyMembership`. -/
def verifyMembership (db : Db) (group_id user_id : Nat) : Bool :=
  db.group_members.any (fun m => m.group_id == group_id && m.user_id == user_id)

/-- An environment in which no query is rejected from outside. -/
def envOk : Env := ⟨none, none, 1000, 1000000⟩

/-- Example store: one user, one group that does not allow anonymity, the creator's
membership row, no message yet. -/
def dbPlain : Db :=
  { users := [⟨1, "alice", some "Alice"⟩]
    chat_groups := [⟨1, "general", some 1, false⟩]
    group_members := [⟨1, 1⟩]
    messages := []
    messages_auto_increment := 1 }

/-! ## The history handler -/

/-- Result row of `SELECT m.*, u.display_name, u.username FROM messages m INNER JOIN users u`. -/
structure HistoryRow where
  id : Nat
  group_id : Nat
  user_id : Nat
  message : String
  is_anonymous : Bool
  created_at : Nat
  display_name : Option String
  username : String
  deriving DecidableEq

/-- The rows `INNER JOIN users u ON m.user_id = u.id` yields for one message. -/
def joinUsers (db : Db) (m : MessageRow) : List HistoryRow :=
  (db.users.filter (fun u => m.user_id == u.id)).map (fun u =>
    { id := m.id, group_id := m.group_id, user_id := m.user_id, message := m.message,
      is_anonymous := m.is_anonymous, created_at := m.created_at,
      display_name := u.display_name, username := u.username })

/-- The rows of `messages m INNER JOIN users u ON m.user_id = u.id WHERE m.group_id = ?`,
in table order. -/
def matchingRows (db : Db) (groupId : Nat) : List HistoryRow :=
  (db.messages.flatMap (joinUsers db)).filter (fun r => r.group_id == groupId)

/-- The columns `m.*` of a result row. -/
def HistoryRow.messageRow (r : HistoryRow) : MessageRow :=
  ⟨r.id, r.group_id, r.user_id, r.message, r.is_anonymous, r.created_at⟩

/-- The order `ORDER BY m.created_at DESC` asks for. -/
def newerOrSame (a b : HistoryRow) : Prop := b.created_at ≤ a.created_at

instance : DecidableRel newerOrSame := fun a b => Nat.decLe b.created_at a.created_at

instance : IsTotal HistoryRow newerOrSame := ⟨fun a b => Nat.le_total b.created_at a.created_at⟩

instance : IsTrans HistoryRow newerOrSame :=
  ⟨fun _ _ _ hab hbc => Nat.le_trans hbc hab⟩

/-- What `parseInt(limit)` gives for the query-string value `limit`, whose default is 50:
`absent` when the request has no `limit`, `text none` when the result is not a finite
number (NaN for a text that does not start with a number, Infinity for one too long),
`text (some n)` when it is the integer `n`. -/
inductive LimitParam where
  | absent
  | text (parsed : Option Int)
  deriving DecidableEq

/-- The value bound to `LIMIT ?`. -/
def parseLimit : LimitParam → Option Int
  | .absent => some 50
  | .text parsed => parsed

/-- Run the query of lines 206-216.
The number bound to `LIMIT ?` is a double, written into the statement as text. The store
rejects the statement when the number is not finite, when it is negative, and when it is
`2 ^ 64` or more (such a number is written with an exponent or lies beyond what `LIMIT`
takes). Below `2 ^ 53` the text is the number itself; from there up to `2 ^ 64` the text
may name a neighbouring integer, and the model takes the number itself.
SQL leaves the order of rows with equal `created_at` open: `scan` is the order in which the
store visits the matching rows, and rows with equal `created_at` keep that order. -/
def selectMessages (db : Db) (fault : Option String)
    (scan : List HistoryRow → List HistoryRow) (groupId : Nat) (limit : Option Int) :
    Except String (List HistoryRow) :=
  match fault with
  | some e => .error e
  | none =>
    match limit with
    | none => .error "You have an error in your SQL syntax near NaN"
    | some n =>
      if n < 0 then .error "You have an error in your SQL syntax near LIMIT"
      else if 2 ^ 64 ≤ n then .error "You have an error in your SQL syntax near LIMIT"
      else
        .ok (((scan (matchingRows db groupId)).insertionSort newerOrSame).take n.toNat)

/-- The handler `app.get("/api/messages/:groupId", ...)`, lines 201-222: `.ok messages` is
the body with `success: true`, `.error e` the status 500 body. -/
def get_messages (db : Db) (fault : Option String)
    (scan : List HistoryRow → List HistoryRow) (groupId : Nat) (limit : LimitParam) :
    Except String (List HistoryRow) :=
  match selectMessages db fault scan groupId (parseLimit limit) with
  | .error e => .error e
  | .ok messages => .ok messages.reverse

/-! ## Interleaved runs

Each `await pool.query(...)` suspends the handler; other handlers run until the query
settles. A query takes effect on the store at the moment it settles. -/

/-- Where one run of the `send_message` handler stands. -/
inductive Pc where
  /-- Suspended at the insert, line 237. -/
  | awaitInsert
  /-- Suspended at the sender lookup, line 243, holding `result.insertId`. -/
  | awaitLookup (insertId : Nat)
  /-- Past the `emit` of line 260 or of the `catch`. -/
  | finished
  deriving DecidableEq

/-- One run of the handler: the connection it serves, its argument, its position. -/
structure Task where
  socket : Nat
  data : SendData
  pc : Pc
  deriving DecidableEq

/-- The server process: the store, the rooms as (socket, group) pairs, the handler runs
started so far (a run is named by its index), every `emit` issued so far in order, and
what each connection was sent, as (socket, event) pairs in order. -/
structure Server where
  db : Db
  rooms : List (Nat × Nat)
  tasks : List Task
  emits : List Emit
  delivered : List (Nat × Emit)
  deriving DecidableEq

/-- What the event loop can run next. -/
inductive Event where
  /-- Handler of `join_group`, line 228. -/
  | join_group (socket groupId : Nat)
  /-- Socket.IO drops a closed connection from its rooms. -/
  | disconnect (socket : Nat)
  /-- A client event `send_message` arrives: the handler starts and issues the insert. -/
  | receive (socket : Nat) (data : SendData)
  /-- The insert of run `task` settles, at store time `ts`. -/
  | insertSettled (task : Nat) (fault : Option String) (ts : Nat)
  /-- The sender lookup of run `task` settles; `date` is what `new Date()` reads. -/
  | lookupSettled (task : Nat) (fault : Option String) (date : Nat)
  deriving DecidableEq

/-- The connections one `emit` call is sent to: the members of the room for
`io.to(room).emit`, the socket itself for `socket.emit`. -/
def deliver (rooms : List (Nat × Nat)) (e : Emit) : List (Nat × Emit) :=
  match e with
  | .new_message room _ => (rooms.filter (fun r => r.2 == room)).map (fun r => (r.1, e))
  | .message_error socket _ => [(socket, e)]

/-- Issue the events `es` in order. -/
def Server.emitAll (s : Server) (es : List Emit) : Server :=
  { s with emits := s.emits ++ es, delivered := s.delivered ++ es.flatMap (deliver s.rooms) }

/-- Events the run `task` issues when its sender lookup settles in state `s`. -/
def tailEmits (s : Server) (task : Nat) (fault : Option String) (date : Nat) : List Emit :=
  match s.tasks[task]? with
  | some ⟨socket, data, .awaitLookup insertId⟩ =>
    (afterInsert s.db fault date socket data insertId).emits
  | _ => []

/-- One turn of the event loop; `none` when the event cannot happen in this state. -/
def step (s : Server) : Event → Option Server
  | .join_group socket groupId =>
    if s.rooms.contains (socket, groupId) then some s
    else some { s with rooms := s.rooms ++ [(socket, groupId)] }
  | .disconnect socket =>
    some { s with rooms := s.rooms.filter (fun r => r.1 != socket) }
  | .receive socket data =>
    some { s with tasks := s.tasks ++ [⟨socket, data, .awaitInsert⟩] }
  | .insertSettled task fault ts =>
    match s.tasks[task]? with
    | some ⟨socket, data, .awaitInsert⟩ =>
      match insertMessage s.db fault ts data.group_id data.user_id data.message
          (data.is_anonymous.getD false) with
      | .error e =>
        some (Server.emitAll { s with tasks := s.tasks.set task ⟨socket, data, .finished⟩ }
          [Emit.message_error socket e])
      | .ok (db1, insertId) =>
        some { s with db := db1, tasks := s.tasks.set task ⟨socket, data, .awaitLookup insertId⟩ }
    | _ => none
  | .lookupSettled task fault date =>
    match s.tasks[task]? with
    | some ⟨socket, data, .awaitLookup _⟩ =>
      some (Server.emitAll { s with tasks := s.tasks.set task ⟨socket, data, .finished⟩ }
        (tailEmits s task fault date))
    | _ => none

/-- Run a schedule of events from `s`. -/
def run : Server → List Event → Option Server
  | s, [] => some s
  | s, e :: es =>
    match step s e with
    | none => none
    | some s1 => run s1 es

/-- A server that has just started on the store `db`. -/
def Server.start (db : Db) : Server := ⟨db, [], [], [], []⟩

/-- The ids of the `new_message` payloads among `es`, in order. -/
def broadcastIds (es : List Emit) : List Nat :=
  es.filterMap (fun e => match e with
    | .new_message _ p => some p.id
    | .message_error _ _ => none)

/-- Two sends to group 1 from connections 7 and 8, watched by connection 9: the second
send arrives after the insert of the first has settled, and its lookup settles first. -/
def overtaking : List Event :=
  [ .join_group 9 1,
    .receive 7 ⟨1, 1, some "first", none⟩,
    .insertSettled 0 none 1000,
    .receive 8 ⟨1, 1, some "second", none⟩,
    .insertSettled 1 none 1000,
    .lookupSettled 1 none 1000001,
    .lookupSettled 0 none 1000002 ]

/-- Example store: as `dbPlain`, with a group that allows anonymity. -/
def dbAnon : Db :=
  { users := [⟨1, "alice", some "Alice"⟩]
    chat_groups := [⟨1, "general", some 1, true⟩]
    group_members := [⟨1, 1⟩]
    messages := []
    messages_auto_increment := 1 }

/-- Example store: two users, one group; only user 1 is a member of it. -/
def dbTwo : Db :=
  { users := [⟨1, "alice", some "Alice"⟩, ⟨2, "bob", some "Bob"⟩]
    chat_groups := [⟨1, "general", some 1, true⟩]
    group_members := [⟨1, 1⟩]
    messages := []
    messages_auto_increment := 1 }

/-- Example store: three messages in group 1, the last two stored within the same second,
and one message in group 2. -/
def dbHistory : Db :=
  { users := [⟨1, "alice", some "Alice"⟩, ⟨2, "bob", some "Bob"⟩]
    chat_groups := [⟨1, "general", some 1, true⟩, ⟨2, "random", some 2, false⟩]
    group_members := [⟨1, 1⟩, ⟨2, 2⟩, ⟨1, 2⟩]
    messages := [⟨1, 1, 1, "one", false, 1000⟩, ⟨2, 2, 2, "elsewhere", false, 1001⟩,
                 ⟨3, 1, 2, "two", false, 1002⟩, ⟨4, 1, 1, "three", false, 1002⟩]
    messages_auto_increment := 5 }

/-- Example store: two messages in group 1 of which the one with the higher id carries
the earlier timestamp. `created_at` is read from the store's clock when the insert starts
and `id` from the counter of the table when the row is written; nothing in the schema ties
one to the other, and two inserts that overlap across the turn of a second, or a clock
that is set back, leave such rows. -/
def dbSkewed : Db :=
  { users := [⟨1, "alice", some "Alice"⟩]
    chat_groups := [⟨1, "general", some 1, true⟩]
    group_members := [⟨1, 1⟩]
    messages := [⟨1, 1, 1, "one", false, 1001⟩, ⟨2, 1, 1, "two", false, 1000⟩]
    messages_auto_increment := 3 }

/-- The store with every group's `anonymous_enabled` flag replaced by `flag` of its id. -/
def setAnonymity (db : Db) (flag : Nat → Bool) : Db :=
  { db with chat_groups := db.chat_groups.map (fun g => { g with anonymous_enabled := flag g.id }) }

end Samvad

namespace Samvad

/-! ## Lemmas on the queries -/

theorem insertMessage_ok_inv {db : Db} {fault : Option String} {ts g u : Nat}
    {m : Option String} {a : Bool} {db1 : Db} {insertId : Nat}
    (h : insertMessage db fault ts g u m a = .ok (db1, insertId)) :
    fault = none ∧ ∃ body, m = some body ∧
      db.chat_groups.any (fun r => r.id == g) = true ∧
      db.users.any (fun r => r.id == u) = true ∧
      insertId = db.messages_auto_increment ∧
      db1 = { db with
                messages := db.messages ++ [⟨insertId, g, u, body, a, ts⟩]
                messages_auto_increment := insertId + 1 } := by
  unfold insertMessage at h
  cases fault with
  | some e => simp at h
  | none =>
    cases m with
    | none => simp at h
    | some body =>
      simp only at h
      split at h
      · rename_i hc
        simp only [Bool.and_eq_true] at hc
        simp only [Except.ok.injEq, Prod.mk.injEq] at h
        obtain ⟨h1, h2⟩ := h
        subst h2
        exact ⟨rfl, body, rfl, hc.1, hc.2, rfl, h1.symm⟩
      · simp at h

theorem send_message_of_insert_error {db : Db} {env : Env} {socket : Nat} {data : SendData}
    {e : String}
    (h : insertMessage db env.insertFault env.current_timestamp data.group_id data.user_id
      data.message (data.is_anonymous.getD false) = .error e) :
    send_message db env socket data = ⟨db, [Emit.message_error socket e]⟩ := by
  simp [send_message, h]

theorem send_message_of_insert_ok {db : Db} {env : Env} {socket : Nat} {data : SendData}
    {db1 : Db} {insertId : Nat}
    (h : insertMessage db env.insertFault env.current_timestamp data.group_id data.user_id
      data.message (data.is_anonymous.getD false) = .ok (db1, insertId)) :
    send_message db env socket data =
      afterInsert db1 env.lookupFault env.date socket data insertId := by
  simp [send_message, h]

theorem afterInsert_db (db : Db) (f : Option String) (date socket : Nat) (data : SendData)
    (insertId : Nat) : (afterInsert db f date socket data insertId).db = db := by
  unfold afterInsert
  split
  · rfl
  · split <;> rfl

theorem messageData_ok_inv {insertId : Nat} {data : SendData} {users : List IdentityRow}
    {date : Nat} {p : MessageData} (h : messageData insertId data users date = .ok p) :
    p.id = insertId ∧ p.group_id = data.group_id ∧ p.user_id = data.user_id ∧
      p.message = data.message ∧ p.is_anonymous = data.is_anonymous ∧ p.created_at = date ∧
      (truthy data.is_anonymous = true →
        p.display_name = some "Anonymous" ∧ p.username = "Anonymous") ∧
      (truthy data.is_anonymous = false →
        ∃ u, users.head? = some u ∧ p.display_name = u.display_name ∧
          p.username = u.username) := by
  unfold messageData at h
  split at h
  · rename_i ht
    simp only [Except.ok.injEq] at h
    subst h
    simp [ht]
  · rename_i ht
    split at h
    · simp at h
    · rename_i u hu
      simp only [Except.ok.injEq] at h
      subst h
      simp [ht, hu]

theorem afterInsert_new_message_inv {db : Db} {f : Option String} {date socket : Nat}
    {data : SendData} {insertId room : Nat} {p : MessageData}
    (h : Emit.new_message room p ∈ (afterInsert db f date socket data insertId).emits) :
    room = data.group_id ∧ ∃ users, selectIdentity db f data.user_id = .ok users ∧
      messageData insertId data users date = .ok p := by
  unfold afterInsert at h
  split at h
  · simp at h
  · rename_i users hs
    split at h
    · simp at h
    · rename_i payload hp
      simp only [List.mem_singleton, Emit.new_message.injEq] at h
      obtain ⟨h1, h2⟩ := h
      subst h1 h2
      exact ⟨rfl, users, hs, hp⟩

theorem send_message_new_message_inv {db : Db} {env : Env} {socket : Nat} {data : SendData}
    {room : Nat} {p : MessageData}
    (h : Emit.new_message room p ∈ (send_message db env socket data).emits) :
    ∃ db1 insertId users,
      insertMessage db env.insertFault env.current_timestamp data.group_id data.user_id
        data.message (data.is_anonymous.getD false) = .ok (db1, insertId) ∧
      (send_message db env socket data).db = db1 ∧
      room = data.group_id ∧
      selectIdentity db1 env.lookupFault data.user_id = .ok users ∧
      messageData insertId data users env.date = .ok p := by
  cases hi : insertMessage db env.insertFault env.current_timestamp data.group_id data.user_id
      data.message (data.is_anonymous.getD false) with
  | error e =>
    rw [send_message_of_insert_error hi] at h
    simp at h
  | ok r =>
    obtain ⟨db1, insertId⟩ := r
    rw [send_message_of_insert_ok hi] at h
    obtain ⟨hr, users, hs, hm⟩ := afterInsert_new_message_inv h
    refine ⟨db1, insertId, users, rfl, ?_, hr, hs, hm⟩
    rw [send_message_of_insert_ok hi, afterInsert_db]

theorem selectIdentity_ok_inv {db : Db} {f : Option String} {user_id : Nat}
    {users : List IdentityRow} (h : selectIdentity db f user_id = .ok users) :
    f = none ∧ users = (db.users.filter (fun u => u.id == user_id)).map
      (fun u => ⟨u.display_name, u.username⟩) := by
  unfold selectIdentity at h
  cases f with
  | some e => simp at h
  | none =>
    simp only [Except.ok.injEq] at h
    exact ⟨rfl, h.symm⟩

theorem head_identity {l : List UserRow} {user_id : Nat} {r : IdentityRow}
    (h : ((l.filter (fun u => u.id == user_id)).map
      (fun u => (⟨u.display_name, u.username⟩ : IdentityRow))).head? = some r) :
    ∃ u ∈ l, u.id = user_id ∧ r.display_name = u.display_name ∧ r.username = u.username := by
  cases hf : l.filter (fun u => u.id == user_id) with
  | nil => simp [hf] at h
  | cons u rest =>
    have hu : u ∈ l.filter (fun u => u.id == user_id) := by simp [hf]
    rw [List.mem_filter] at hu
    simp only [hf, List.map_cons, List.head?_cons, Option.some.injEq] at h
    subst h
    exact ⟨u, hu.1, by simpa using hu.2, rfl, rfl⟩

/-- The events of a run depend on the store only through the `users` table, the ids of
`chat_groups` and the `AUTO_INCREMENT` counter. -/
theorem send_message_emits_congr {db db2 : Db} (env : Env) (socket : Nat) (data : SendData)
    (hu : db2.users = db.users)
    (hg : db2.chat_groups.map (fun g => g.id) = db.chat_groups.map (fun g => g.id))
    (hc : db2.messages_auto_increment = db.messages_auto_increment) :
    (send_message db2 env socket data).emits = (send_message db env socket data).emits := by
  have hany : db2.chat_groups.any (fun g => g.id == data.group_id)
      = db.chat_groups.any (fun g => g.id == data.group_id) := by
    have h1 : ∀ l : List GroupRow, l.any (fun g => g.id == data.group_id)
        = (l.map (fun g => g.id)).any (fun i => i == data.group_id) := by
      intro l; induction l with
      | nil => rfl
      | cons x xs ih => simp [List.any_cons, ih]
    rw [h1, h1, hg]
  unfold send_message insertMessage
  cases env.insertFault with
  | some e => rfl
  | none =>
    cases data.message with
    | none => rfl
    | some body =>
      simp only [hany, hu, hc]
      by_cases hcnd : (db.chat_groups.any (fun g => g.id == data.group_id)
          && db.users.any (fun u => u.id == data.user_id)) = true
      · rw [if_pos hcnd, if_pos hcnd]
        simp only [afterInsert, selectIdentity]
        cases env.lookupFault with
        | some e => rfl
        | none =>
          simp only
          cases messageData db.messages_auto_increment data
            (List.map (fun u => (⟨u.display_name, u.username⟩ : IdentityRow))
              (List.filter (fun u => u.id == data.user_id) db.users)) env.date <;> rfl
      · rw [if_neg hcnd, if_neg hcnd]

theorem head_identity_of_any {l : List UserRow} {user_id : Nat}
    (h : l.any (fun u => u.id == user_id) = true) :
    ∃ r, ((l.filter (fun u => u.id == user_id)).map
      (fun u => (⟨u.display_name, u.username⟩ : IdentityRow))).head? = some r := by
  obtain ⟨u, hu, hp⟩ := List.any_eq_true.mp h
  have hmem : u ∈ l.filter (fun u => u.id == user_id) := List.mem_filter.mpr ⟨hu, hp⟩
  cases hf : l.filter (fun u => u.id == user_id) with
  | nil => rw [hf] at hmem; simp at hmem
  | cons v rest => exact ⟨⟨v.display_name, v.username⟩, by simp⟩

/-- Once the insert has succeeded, the run ends in exactly one event: the broadcast when the
lookup query is answered, `message_error` when it is rejected. -/
theorem send_message_after_insert_ok {db : Db} {env : Env} {socket : Nat} {data : SendData}
    {db1 : Db} {insertId : Nat}
    (hi : insertMessage db env.insertFault env.current_timestamp data.group_id data.user_id
      data.message (data.is_anonymous.getD false) = .ok (db1, insertId)) :
    (env.lookupFault = none →
      ∃ p, send_message db env socket data = ⟨db1, [Emit.new_message data.group_id p]⟩ ∧
        p.id = insertId) ∧
    (∀ e, env.lookupFault = some e →
      send_message db env socket data = ⟨db1, [Emit.message_error socket e]⟩) := by
  rw [send_message_of_insert_ok hi]
  obtain ⟨_, body, _, _, hany, _, hdb1⟩ := insertMessage_ok_inv hi
  have husers : db1.users = db.users := by rw [hdb1]
  constructor
  · intro hl
    unfold afterInsert selectIdentity
    rw [hl, husers]
    simp only
    cases hm : messageData insertId data
        (List.map (fun u => (⟨u.display_name, u.username⟩ : IdentityRow))
          (List.filter (fun u => u.id == data.user_id) db.users)) env.date with
    | ok p => exact ⟨p, rfl, (messageData_ok_inv hm).1⟩
    | error e =>
      exfalso
      obtain ⟨r, hr⟩ := head_identity_of_any hany
      unfold messageData at hm
      split at hm
      · simp at hm
      · rw [hr] at hm
        simp at hm
  · intro e hl
    unfold afterInsert selectIdentity
    rw [hl]

/-- The handler neither reads nor writes `group_members`. -/
theorem send_message_group_members (db : Db) (members : List MemberRow) (env : Env)
    (socket : Nat) (data : SendData) :
    send_message { db with group_members := members } env socket data =
      ⟨{ (send_message db env socket data).db with group_members := members },
        (send_message db env socket data).emits⟩ := by
  unfold send_message insertMessage
  cases env.insertFault with
  | some e => rfl
  | none =>
    cases data.message with
    | none => rfl
    | some body =>
      simp only
      by_cases hcnd : (db.chat_groups.any (fun g => g.id == data.group_id)
          && db.users.any (fun u => u.id == data.user_id)) = true
      · simp only [hcnd, ↓reduceIte, afterInsert, selectIdentity]
        cases env.lookupFault with
        | some e => rfl
        | none =>
          simp only
          cases messageData db.messages_auto_increment data
            (List.map (fun u => (⟨u.display_name, u.username⟩ : IdentityRow))
              (List.filter (fun u => u.id == data.user_id) db.users)) env.date <;> rfl
      · simp only [hcnd]
        rfl

theorem insertMessage_foreign_key {db : Db} {fault : Option String} {ts g u : Nat}
    {m : Option String} {a : Bool}
    (h : db.chat_groups.any (fun r => r.id == g) = false ∨
      db.users.any (fun r => r.id == u) = false) :
    ∃ e, insertMessage db fault ts g u m a = .error e := by
  cases hr : insertMessage db fault ts g u m a with
  | error e => exact ⟨e, rfl⟩
  | ok r =>
    obtain ⟨db1, insertId⟩ := r
    obtain ⟨_, _, _, hg, hu, _, _⟩ := insertMessage_ok_inv hr
    rcases h with h | h
    · rw [hg] at h; cases h
    · rw [hu] at h; cases h

/-! ## C1: when the payload is masked -/

/-- C1, as stated, fails: in a group whose `anonymous_enabled` flag is false, a send with
`is_anonymous: true` is still broadcast with `display_name` and `username` replaced by
"Anonymous". -/
theorem masked_although_group_forbids :
    groupAllowsAnonymity dbPlain 1 = false ∧
    (send_message dbPlain envOk 7 ⟨1, 1, some "hi", some true⟩).emits =
      [Emit.new_message 1
        ⟨1, 1, 1, some "hi", some true, some "Anonymous", "Anonymous", 1000000⟩] := by
  decide

/-- C1, amended: the group's `anonymous_enabled` flag has no influence on what is emitted;
a broadcast payload carries "Anonymous" as `display_name` and `username` whenever
`is_anonymous` is truthy, and the stored names of the sender's `users` row whenever it is
not. -/
theorem masking_follows_request_only (db : Db) (env : Env) (socket : Nat) (data : SendData) :
    (∀ flag : Nat → Bool,
      (send_message (setAnonymity db flag) env socket data).emits =
        (send_message db env socket data).emits) ∧
    (∀ room p, Emit.new_message room p ∈ (send_message db env socket data).emits →
      (truthy data.is_anonymous = true →
        p.display_name = some "Anonymous" ∧ p.username = "Anonymous") ∧
      (truthy data.is_anonymous = false →
        ∃ u ∈ db.users, u.id = data.user_id ∧ p.display_name = u.display_name ∧
          p.username = u.username)) := by
  refine ⟨fun flag => ?_, fun room p h => ?_⟩
  · apply send_message_emits_congr
    · rfl
    · simp [setAnonymity, Function.comp_def]
    · rfl
  · obtain ⟨db1, insertId, users, hi, _, _, hs, hm⟩ := send_message_new_message_inv h
    obtain ⟨_, _, _, _, _, _, hmask, hreal⟩ := messageData_ok_inv hm
    refine ⟨hmask, fun hf => ?_⟩
    obtain ⟨u, hu, hd, hn⟩ := hreal hf
    obtain ⟨_, husers⟩ := selectIdentity_ok_inv hs
    obtain ⟨_, body, _, _, _, _, hdb1⟩ := insertMessage_ok_inv hi
    rw [husers, hdb1] at hu
    exact
      let ⟨r, hr, hid, h1, h2⟩ := head_identity hu
      ⟨r, hr, hid, hd.trans h1, hn.trans h2⟩

/-- Witness for `masking_follows_request_only`: an anonymous send in a group that forbids
anonymity, and the same send once the flag is set. -/
theorem masking_follows_request_only_witness :
    (send_message (setAnonymity dbPlain (fun _ => true)) envOk 7
        ⟨1, 1, some "hi", some true⟩).emits =
      (send_message dbPlain envOk 7 ⟨1, 1, some "hi", some true⟩).emits ∧
    ((truthy (some true) = true →
        (some "Anonymous" : Option String) = some "Anonymous" ∧ "Anonymous" = "Anonymous") ∧
      (truthy (some true) = false →
        ∃ u ∈ dbPlain.users, u.id = 1 ∧ some "Anonymous" = u.display_name ∧
          "Anonymous" = u.username)) :=
  ⟨(masking_follows_request_only dbPlain envOk 7 ⟨1, 1, some "hi", some true⟩).1
      (fun _ => true),
   (masking_follows_request_only dbPlain envOk 7 ⟨1, 1, some "hi", some true⟩).2 1
      ⟨1, 1, 1, some "hi", some true, some "Anonymous", "Anonymous", 1000000⟩ (by decide)⟩

/-! ## C5: a failed insert -/

/-- C5: when the insert fails with error `e`, the store is unchanged and the run emits
exactly one event, `message_error` with that error, on the sending socket; no
`new_message` is emitted, and whatever the rooms are the event is delivered to the sending
connection alone. -/
theorem insert_failure_reported_to_sender_only (db : Db) (env : Env) (socket : Nat)
    (data : SendData) (e : String)
    (h : insertMessage db env.insertFault env.current_timestamp data.group_id data.user_id
      data.message (data.is_anonymous.getD false) = .error e) :
    (send_message db env socket data).db = db ∧
    (send_message db env socket data).emits = [Emit.message_error socket e] ∧
    (∀ room p, Emit.new_message room p ∉ (send_message db env socket data).emits) ∧
    (∀ rooms : List (Nat × Nat),
      (send_message db env socket data).emits.flatMap (deliver rooms) =
        [(socket, Emit.message_error socket e)]) := by
  rw [send_message_of_insert_error h]
  refine ⟨rfl, rfl, ?_, ?_⟩
  · intro room p hmem
    simp at hmem
  · intro rooms
    simp [deliver]

/-- Witness for `insert_failure_reported_to_sender_only`: the store rejects the insert
because the connection to it is lost. -/
theorem insert_failure_reported_to_sender_only_witness :
    (send_message dbPlain ⟨some "Connection lost", none, 1000, 1000000⟩ 7
        ⟨1, 1, some "hi", none⟩).db = dbPlain ∧
    (send_message dbPlain ⟨some "Connection lost", none, 1000, 1000000⟩ 7
        ⟨1, 1, some "hi", none⟩).emits = [Emit.message_error 7 "Connection lost"] ∧
    (∀ room p, Emit.new_message room p ∉
      (send_message dbPlain ⟨some "Connection lost", none, 1000, 1000000⟩ 7
        ⟨1, 1, some "hi", none⟩).emits) ∧
    (∀ rooms : List (Nat × Nat),
      (send_message dbPlain ⟨some "Connection lost", none, 1000, 1000000⟩ 7
        ⟨1, 1, some "hi", none⟩).emits.flatMap (deliver rooms) =
        [(7, Emit.message_error 7 "Connection lost")]) :=
  insert_failure_reported_to_sender_only dbPlain ⟨some "Connection lost", none, 1000, 1000000⟩
    7 ⟨1, 1, some "hi", none⟩ "Connection lost" rfl

/-! ## C6: the broadcast follows the insert -/

/-- C6: whenever a run emits `new_message`, its insert had succeeded: the insert returned
the store of the outcome together with the `id` of the payload as `insertId`, that store
holds the row with this id, and the payload's `group_id` and `message` (and the room it is
sent to) are those of the row. -/
theorem broadcast_carries_persisted_row (db : Db) (env : Env) (socket : Nat)
    (data : SendData) (room : Nat) (p : MessageData)
    (h : Emit.new_message room p ∈ (send_message db env socket data).emits) :
    ∃ body : String,
      insertMessage db env.insertFault env.current_timestamp data.group_id data.user_id
        data.message (data.is_anonymous.getD false)
        = .ok ((send_message db env socket data).db, p.id) ∧
      p.id = db.messages_auto_increment ∧
      (send_message db env socket data).db.messages = db.messages ++
        [⟨p.id, p.group_id, p.user_id, body, data.is_anonymous.getD false,
          env.current_timestamp⟩] ∧
      p.message = some body ∧ room = p.group_id := by
  obtain ⟨db1, insertId, users, hi, hdb, hroom, _, hm⟩ := send_message_new_message_inv h
  obtain ⟨hid, hg, hu, hmsg, _, _, _, _⟩ := messageData_ok_inv hm
  obtain ⟨_, body, hbody, _, _, hctr, hdb1⟩ := insertMessage_ok_inv hi
  refine ⟨body, ?_, ?_, ?_, ?_, ?_⟩
  · rw [hdb, hid]; exact hi
  · rw [hid]; exact hctr
  · rw [hdb, hdb1, hid, hg, hu]
  · rw [hmsg]; exact hbody
  · rw [hg]; exact hroom

/-- Witness for `broadcast_carries_persisted_row`: the first message of `dbPlain`. -/
theorem broadcast_carries_persisted_row_witness :
    ∃ body : String,
      insertMessage dbPlain none 1000 1 1 (some "hi") false
        = .ok ((send_message dbPlain envOk 7 ⟨1, 1, some "hi", none⟩).db, 1) ∧
      1 = dbPlain.messages_auto_increment ∧
      (send_message dbPlain envOk 7 ⟨1, 1, some "hi", none⟩).db.messages = dbPlain.messages ++
        [⟨1, 1, 1, body, false, 1000⟩] ∧
      some "hi" = some body ∧ 1 = 1 :=
  broadcast_carries_persisted_row dbPlain envOk 7 ⟨1, 1, some "hi", none⟩ 1
    ⟨1, 1, 1, some "hi", none, some "Alice", "alice", 1000000⟩ (by decide)

/-! ## C10: the payload names the sender -/

/-- C10: every broadcast payload carries the `user_id` of the request, masked or not; apart
from `display_name` and `username` its fields are the request's and the insert id; so two
payloads of sends by different users differ in `user_id`, also when both are masked. -/
theorem payload_user_id_is_sender (db1 db2 : Db) (env1 env2 : Env) (s1 s2 : Nat)
    (d1 d2 : SendData) (r1 r2 : Nat) (p1 p2 : MessageData)
    (h1 : Emit.new_message r1 p1 ∈ (send_message db1 env1 s1 d1).emits)
    (h2 : Emit.new_message r2 p2 ∈ (send_message db2 env2 s2 d2).emits) :
    p1.user_id = d1.user_id ∧ p2.user_id = d2.user_id ∧
    p1.group_id = d1.group_id ∧ p1.message = d1.message ∧
    p1.is_anonymous = d1.is_anonymous ∧ p1.created_at = env1.date ∧
    (d1.user_id ≠ d2.user_id → p1.user_id ≠ p2.user_id) := by
  obtain ⟨_, _, _, _, _, _, _, hm1⟩ := send_message_new_message_inv h1
  obtain ⟨_, _, _, _, _, _, _, hm2⟩ := send_message_new_message_inv h2
  obtain ⟨_, hg1, hu1, hmsg1, ha1, hc1, _, _⟩ := messageData_ok_inv hm1
  obtain ⟨_, _, hu2, _, _, _, _, _⟩ := messageData_ok_inv hm2
  refine ⟨hu1, hu2, hg1, hmsg1, ha1, hc1, fun hne => ?_⟩
  rw [hu1, hu2]
  exact hne

/-- Witness for `payload_user_id_is_sender`: the same anonymous text sent by users 1 and 2;
both payloads are masked and differ in `user_id`. -/
theorem payload_user_id_is_sender_witness :
    (1 : Nat) = 1 ∧ (2 : Nat) = 2 ∧ (1 : Nat) = 1 ∧ some "psst" = some "psst" ∧
    some true = some true ∧ (1000000 : Nat) = envOk.date ∧
    ((1 : Nat) ≠ 2 → (1 : Nat) ≠ 2) :=
  payload_user_id_is_sender dbTwo dbTwo envOk envOk 7 8
    ⟨1, 1, some "psst", some true⟩ ⟨1, 2, some "psst", some true⟩ 1 1
    ⟨1, 1, 1, some "psst", some true, some "Anonymous", "Anonymous", 1000000⟩
    ⟨1, 1, 2, some "psst", some true, some "Anonymous", "Anonymous", 1000000⟩
    (by decide) (by decide)

/-! ## C8: what follows a successful insert -/

/-- C8, as stated, fails: the insert succeeds and the row is stored, then the sender lookup
is rejected; the run reports `message_error` to the sender and broadcasts nothing. -/
theorem lookup_failure_after_insert_reports_error :
    (send_message dbPlain ⟨none, some "Connection lost", 1000, 1000000⟩ 7
        ⟨1, 1, some "hi", none⟩).db.messages = [⟨1, 1, 1, "hi", false, 1000⟩] ∧
    (send_message dbPlain ⟨none, some "Connection lost", 1000, 1000000⟩ 7
        ⟨1, 1, some "hi", none⟩).emits = [Emit.message_error 7 "Connection lost"] := by
  decide

/-- C8, amended: after a successful insert, a run whose sender lookup is answered emits
exactly one event, the `new_message` for the room of the group with the insert id, and no
`message_error`, whatever the rooms hold; a run whose sender lookup is rejected with `e`
keeps the inserted row and emits only `message_error` with `e` to the sender. -/
theorem after_insert_broadcast_unless_lookup_rejected (db : Db) (env : Env) (socket : Nat)
    (data : SendData) (db1 : Db) (insertId : Nat)
    (hi : insertMessage db env.insertFault env.current_timestamp data.group_id data.user_id
      data.message (data.is_anonymous.getD false) = .ok (db1, insertId)) :
    (env.lookupFault = none →
      ∃ p, (send_message db env socket data).emits = [Emit.new_message data.group_id p] ∧
        p.id = insertId ∧ (send_message db env socket data).db = db1) ∧
    (∀ e, env.lookupFault = some e →
      (send_message db env socket data).emits = [Emit.message_error socket e] ∧
        (send_message db env socket data).db = db1) := by
  obtain ⟨hok, hrej⟩ := @send_message_after_insert_ok db env socket data db1 insertId hi
  constructor
  · intro hl
    obtain ⟨p, hp, hid⟩ := hok hl
    exact ⟨p, by rw [hp], hid, by rw [hp]⟩
  · intro e hl
    rw [hrej e hl]
    exact ⟨rfl, rfl⟩

/-- Witness for `after_insert_broadcast_unless_lookup_rejected`: a send on `dbPlain` with
no rejected query. -/
theorem after_insert_broadcast_unless_lookup_rejected_witness :
    (envOk.lookupFault = none →
      ∃ p, (send_message dbPlain envOk 7 ⟨1, 1, some "hi", none⟩).emits
          = [Emit.new_message 1 p] ∧
        p.id = 1 ∧ (send_message dbPlain envOk 7 ⟨1, 1, some "hi", none⟩).db =
          { dbPlain with messages := [⟨1, 1, 1, "hi", false, 1000⟩]
                         messages_auto_increment := 2 }) ∧
    (∀ e, envOk.lookupFault = some e →
      (send_message dbPlain envOk 7 ⟨1, 1, some "hi", none⟩).emits
          = [Emit.message_error 7 e] ∧
        (send_message dbPlain envOk 7 ⟨1, 1, some "hi", none⟩).db =
          { dbPlain with messages := [⟨1, 1, 1, "hi", false, 1000⟩]
                         messages_auto_increment := 2 }) :=
  after_insert_broadcast_unless_lookup_rejected dbPlain envOk 7 ⟨1, 1, some "hi", none⟩
    { dbPlain with messages := [⟨1, 1, 1, "hi", false, 1000⟩], messages_auto_increment := 2 }
    1 rfl

/-! ## C3: sends by non-members -/

/-- C3, as stated, fails: user 2 exists and has no `group_members` row for group 1, yet the
send is stored and broadcast to the room of group 1, and no error is reported. -/
theorem non_member_send_is_stored_and_broadcast :
    verifyMembership dbTwo 1 2 = false ∧
    (send_message dbTwo envOk 8 ⟨1, 2, some "hello", none⟩).db.messages =
      [⟨1, 1, 2, "hello", false, 1000⟩] ∧
    (send_message dbTwo envOk 8 ⟨1, 2, some "hello", none⟩).emits =
      [Emit.new_message 1 ⟨1, 1, 2, some "hello", none, some "Bob", "bob", 1000000⟩] := by
  decide

/-- C3, amended: the table `group_members` has no influence on a send, neither on the rows
stored nor on the events emitted; what is checked is that `group_id` and `user_id` name
existing rows: when either names none, the store is left unchanged, nothing is broadcast
and one `message_error` is reported to the sender. -/
theorem send_checks_existence_not_membership (db : Db) (env : Env) (socket : Nat)
    (data : SendData) :
    (∀ members : List MemberRow,
      (send_message { db with group_members := members } env socket data).db.messages =
        (send_message db env socket data).db.messages ∧
      (send_message { db with group_members := members } env socket data).emits =
        (send_message db env socket data).emits) ∧
    ((db.chat_groups.any (fun g => g.id == data.group_id) = false ∨
        db.users.any (fun u => u.id == data.user_id) = false) →
      (send_message db env socket data).db = db ∧
      (∀ room p, Emit.new_message room p ∉ (send_message db env socket data).emits) ∧
      ∃ e, (send_message db env socket data).emits = [Emit.message_error socket e]) := by
  constructor
  · intro members
    rw [send_message_group_members]
    exact ⟨rfl, rfl⟩
  · intro h
    have hfk : ∃ e, insertMessage db env.insertFault env.current_timestamp data.group_id
        data.user_id data.message (data.is_anonymous.getD false) = .error e :=
      insertMessage_foreign_key h
    obtain ⟨e, he⟩ := hfk
    rw [send_message_of_insert_error he]
    refine ⟨rfl, ?_, e, rfl⟩
    intro room p hmem
    simp at hmem

/-- Witness for `send_checks_existence_not_membership`: user 3 does not exist in
`dbTwo`. -/
theorem send_checks_existence_not_membership_witness :
    (send_message dbTwo envOk 8 ⟨1, 3, some "hello", none⟩).db = dbTwo ∧
    (∀ room p, Emit.new_message room p ∉
      (send_message dbTwo envOk 8 ⟨1, 3, some "hello", none⟩).emits) ∧
    ∃ e, (send_message dbTwo envOk 8 ⟨1, 3, some "hello", none⟩).emits =
      [Emit.message_error 8 e] :=
  (send_checks_existence_not_membership dbTwo envOk 8 ⟨1, 3, some "hello", none⟩).2
    (Or.inr (by decide))

/-! ## C4: empty and missing bodies -/

/-- A payload of `null` or `undefined` ends the callback at the destructuring: the store is
left as it was and no event is emitted, not even `message_error`. -/
theorem on_send_message_nullish (db : Db) (env : Env) (socket : Nat) :
    on_send_message db env socket Payload.nullish = ⟨db, []⟩ := rfl

/-- C4, as stated, fails: a send whose body is the empty string is stored and broadcast
like any other, and no error is reported. -/
theorem empty_body_is_stored_and_broadcast :
    (on_send_message dbPlain envOk 7
        (Payload.fields (some 1) (some 1) (some "") none)).db.messages =
      [⟨1, 1, 1, "", false, 1000⟩] ∧
    (on_send_message dbPlain envOk 7
        (Payload.fields (some 1) (some 1) (some "") none)).emits =
      [Emit.new_message 1 ⟨1, 1, 1, some "", none, some "Alice", "alice", 1000000⟩] := by
  decide

/-- C4, amended: for every payload other than `null` and `undefined` whose body is missing,
whatever its other fields are, the insert is rejected; the store is left unchanged, nothing
is broadcast, and exactly one `message_error` is emitted, delivered to the sending
connection alone. -/
theorem missing_body_is_rejected (db : Db) (env : Env) (socket : Nat)
    (group_id user_id : Option Nat) (is_anonymous : Option Bool) :
    (on_send_message db env socket (Payload.fields group_id user_id none is_anonymous)).db
      = db ∧
    (∀ room p, Emit.new_message room p ∉
      (on_send_message db env socket
        (Payload.fields group_id user_id none is_anonymous)).emits) ∧
    ∃ e,
      (on_send_message db env socket
        (Payload.fields group_id user_id none is_anonymous)).emits =
          [Emit.message_error socket e] ∧
      ∀ rooms : List (Nat × Nat),
        (on_send_message db env socket
          (Payload.fields group_id user_id none is_anonymous)).emits.flatMap (deliver rooms) =
          [(socket, Emit.message_error socket e)] := by
  have key : ∃ e, on_send_message db env socket
      (Payload.fields group_id user_id none is_anonymous) =
        ⟨db, [Emit.message_error socket e]⟩ := by
    cases group_id with
    | none => exact ⟨_, rfl⟩
    | some g =>
      cases user_id with
      | none => exact ⟨_, rfl⟩
      | some u =>
        have he : ∃ e, insertMessage db env.insertFault env.current_timestamp g u none
            (is_anonymous.getD false) = .error e := by
          unfold insertMessage
          cases env.insertFault with
          | some e => exact ⟨e, rfl⟩
          | none => exact ⟨_, rfl⟩
        obtain ⟨e, he⟩ := he
        refine ⟨e, ?_⟩
        show send_message db env socket ⟨g, u, none, is_anonymous⟩ = _
        exact send_message_of_insert_error he
  obtain ⟨e, he⟩ := key
  rw [he]
  refine ⟨rfl, ?_, e, rfl, ?_⟩
  · intro room p hmem
    simp at hmem
  · intro rooms
    simp [deliver]

/-- Witness for `missing_body_is_rejected`: a payload with both ids and no `message`, sent
on `dbPlain`. -/
theorem missing_body_is_rejected_witness :
    (on_send_message dbPlain envOk 7 (Payload.fields (some 1) (some 1) none none)).db
      = dbPlain ∧
    (∀ room p, Emit.new_message room p ∉
      (on_send_message dbPlain envOk 7 (Payload.fields (some 1) (some 1) none none)).emits) ∧
    ∃ e,
      (on_send_message dbPlain envOk 7 (Payload.fields (some 1) (some 1) none none)).emits =
          [Emit.message_error 7 e] ∧
      ∀ rooms : List (Nat × Nat),
        (on_send_message dbPlain envOk 7
          (Payload.fields (some 1) (some 1) none none)).emits.flatMap (deliver rooms) =
          [(7, Emit.message_error 7 e)] :=
  missing_body_is_rejected dbPlain envOk 7 (some 1) (some 1) none

/-! ## C2: the history of an anonymous message -/

/-- C2, evaluated: in a group that allows anonymity, an anonymous send is broadcast with
`display_name` and `username` "Anonymous", and the history of the group then lists the same
message with the stored names of its sender. (One row is stored, so the order in which the
store visits rows plays no part.) -/
theorem history_unmasks_anonymous_message :
    (send_message dbAnon envOk 7 ⟨1, 1, some "hi", some true⟩).emits =
      [Emit.new_message 1
        ⟨1, 1, 1, some "hi", some true, some "Anonymous", "Anonymous", 1000000⟩] ∧
    get_messages (send_message dbAnon envOk 7 ⟨1, 1, some "hi", some true⟩).db none
        List.reverse 1 LimitParam.absent =
      .ok [⟨1, 1, 1, "hi", true, 1000, some "Alice", "alice"⟩] :=
  ⟨by decide, rfl⟩

/-! ## C7: the history of a group -/

/-- The store's answer before `LIMIT`: the matching rows, newest first. -/
theorem ordered_rows_spec (scan : List HistoryRow → List HistoryRow)
    (hscan : ∀ l, (scan l).Perm l) (db : Db) (groupId : Nat) :
    ((scan (matchingRows db groupId)).insertionSort newerOrSame).Perm
        (matchingRows db groupId) ∧
      ((scan (matchingRows db groupId)).insertionSort newerOrSame).Pairwise newerOrSame :=
  ⟨(List.perm_insertionSort _ _).trans (hscan _),
    List.sorted_insertionSort newerOrSame _⟩

theorem get_messages_eq (scan : List HistoryRow → List HistoryRow) (db : Db) (groupId : Nat)
    (limit : LimitParam) (n : Nat)
    (h : parseLimit limit = some (n : Int)) (hn : n < 2 ^ 64) :
    selectMessages db none scan groupId (parseLimit limit) =
        .ok (((scan (matchingRows db groupId)).insertionSort newerOrSame).take n) ∧
      get_messages db none scan groupId limit =
        .ok (((scan (matchingRows db groupId)).insertionSort newerOrSame).take n).reverse := by
  have hs : selectMessages db none scan groupId (parseLimit limit) =
      .ok (((scan (matchingRows db groupId)).insertionSort newerOrSame).take n) := by
    rw [h]
    unfold selectMessages
    have h0 : ¬ ((n : Int) < 0) := by omega
    have h64 : ¬ ((2 : Int) ^ 64 ≤ (n : Int)) := by
      have hc : ((2 ^ 64 : Nat) : Int) = (2 : Int) ^ 64 := by norm_num
      omega
    simp only [h0, h64, if_false, Int.toNat_ofNat]
  refine ⟨hs, ?_⟩
  unfold get_messages
  rw [hs]

theorem get_messages_rejected (scan : List HistoryRow → List HistoryRow) (db : Db)
    (groupId : Nat) (limit : LimitParam)
    (h : parseLimit limit = none ∨
      ∃ m : Int, parseLimit limit = some m ∧ (m < 0 ∨ 2 ^ 64 ≤ m)) :
    ∃ e, get_messages db none scan groupId limit = .error e := by
  unfold get_messages selectMessages
  rcases h with h | ⟨m, h, hm⟩
  · rw [h]
    exact ⟨_, rfl⟩
  · rw [h]
    by_cases h0 : m < 0
    · simp only [h0, if_true]
      exact ⟨_, rfl⟩
    · have h64 : 2 ^ 64 ≤ m := hm.resolve_left h0
      simp only [h0, h64, if_true, if_false]
      exact ⟨_, rfl⟩

/-- When every message has exactly one `users` row (the foreign key and the primary key of
`users`), the matching rows are the messages of the group, one row each. -/
theorem matchingRows_messages (db : Db) (groupId : Nat)
    (hfk : ∀ m ∈ db.messages, (db.users.filter (fun u => m.user_id == u.id)).length = 1) :
    (matchingRows db groupId).map HistoryRow.messageRow =
      db.messages.filter (fun m => m.group_id == groupId) := by
  unfold matchingRows
  generalize db.messages = ms at hfk
  induction ms with
  | nil => rfl
  | cons m rest ih =>
    have h1 := hfk m (List.mem_cons_self _ _)
    have ih1 := ih (fun x hx => hfk x (List.mem_cons_of_mem _ hx))
    obtain ⟨u, hu⟩ := List.length_eq_one.mp h1
    rw [List.flatMap_cons, List.filter_append, List.map_append, ih1]
    unfold joinUsers
    rw [hu]
    by_cases hg : m.group_id = groupId
    · subst hg
      simp [HistoryRow.messageRow]
    · simp [hg, HistoryRow.messageRow]

/-- The whole history of a group, for a limit that covers it: some ordering of the matching
rows, ascending in `created_at`. -/
theorem history_of_all (scan : List HistoryRow → List HistoryRow)
    (hscan : ∀ l, (scan l).Perm l) (db : Db) (groupId : Nat) (limit : LimitParam) (n : Nat)
    (h : parseLimit limit = some (n : Int)) (hn : n < 2 ^ 64)
    (hall : (matchingRows db groupId).length ≤ n) :
    ∃ rows, get_messages db none scan groupId limit = .ok rows ∧
      rows.Perm (matchingRows db groupId) ∧
      rows.Pairwise (fun a b => a.created_at ≤ b.created_at) := by
  obtain ⟨_, hget⟩ := get_messages_eq scan db groupId limit n h hn
  obtain ⟨hperm, hsorted⟩ := ordered_rows_spec scan hscan db groupId
  have hlen : ((scan (matchingRows db groupId)).insertionSort newerOrSame).length ≤ n := by
    rw [hperm.length_eq]; exact hall
  rw [List.take_of_length_le hlen] at hget
  refine ⟨_, hget, (List.reverse_perm _).trans hperm, ?_⟩
  rw [List.pairwise_reverse]
  exact hsorted

/-- C7, as stated, fails, whichever way "creation order" is read and in whatever order the
store lists rows of equal `created_at`.
In `dbHistory` messages 3 and 4 of group 1 were stored within the same second: every answer
the handler can give lists two rows with equal `created_at`, so none is strictly ascending
by creation time.
In `dbSkewed` message 2 carries an earlier `created_at` than message 1: the handler lists
message 2 before message 1, so the rows are not in ascending order of their ids. -/
theorem history_order_is_by_timestamp :
    (∀ scan : List HistoryRow → List HistoryRow, (∀ l, (scan l).Perm l) →
      ∃ rows, get_messages dbHistory none scan 1 LimitParam.absent = .ok rows ∧
        ¬ rows.Pairwise (fun a b => a.created_at < b.created_at)) ∧
    (∀ scan : List HistoryRow → List HistoryRow, (∀ l, (scan l).Perm l) →
      get_messages dbSkewed none scan 1 LimitParam.absent =
          .ok [⟨2, 1, 1, "two", false, 1000, some "Alice", "alice"⟩,
               ⟨1, 1, 1, "one", false, 1001, some "Alice", "alice"⟩]) ∧
    ¬ List.Pairwise (fun a b : HistoryRow => a.id < b.id)
        [⟨2, 1, 1, "two", false, 1000, some "Alice", "alice"⟩,
         ⟨1, 1, 1, "one", false, 1001, some "Alice", "alice"⟩] := by
  refine ⟨fun scan hscan => ?_, fun scan hscan => ?_, by decide⟩
  · obtain ⟨rows, hget, hperm, _⟩ :=
      history_of_all scan hscan dbHistory 1 LimitParam.absent 50 rfl (by norm_num)
        (by decide)
    refine ⟨rows, hget, fun hlt => ?_⟩
    have hne : rows.Pairwise (fun a b => a.created_at ≠ b.created_at) :=
      hlt.imp (fun h => Nat.ne_of_lt h)
    have h2 := (hperm.pairwise_iff (fun h => Ne.symm h)).mp hne
    have hrows : matchingRows dbHistory 1 =
        [⟨1, 1, 1, "one", false, 1000, some "Alice", "alice"⟩,
         ⟨3, 1, 2, "two", false, 1002, some "Bob", "bob"⟩,
         ⟨4, 1, 1, "three", false, 1002, some "Alice", "alice"⟩] := by decide
    rw [hrows] at h2
    simp at h2
  · obtain ⟨rows, hget, hperm, hsorted⟩ :=
      history_of_all scan hscan dbSkewed 1 LimitParam.absent 50 rfl (by norm_num)
        (by decide)
    have hrows : matchingRows dbSkewed 1 =
        [⟨1, 1, 1, "one", false, 1001, some "Alice", "alice"⟩,
         ⟨2, 1, 1, "two", false, 1000, some "Alice", "alice"⟩] := by decide
    rw [hrows] at hperm
    rw [hget]
    have hlen := hperm.length_eq
    have h1 := hperm.mem_iff.mpr (List.mem_cons_self _ _)
    have h2 := hperm.mem_iff.mpr (List.mem_cons_of_mem _ (List.mem_cons_self _ _))
    match rows, hlen, h1, h2, hsorted with
    | [a, b], _, h1, h2, hsorted =>
      simp only [List.mem_cons, List.mem_singleton, List.not_mem_nil, or_false] at h1 h2
      simp only [List.pairwise_cons, List.mem_singleton, forall_eq, List.not_mem_nil,
        List.Pairwise.nil, and_true, false_imp_iff, implies_true] at hsorted
      rcases h1 with h1 | h1
      · rcases h2 with h2 | h2
        · rw [← h1] at h2; exact absurd h2 (by decide)
        · rw [← h1, ← h2] at hsorted; exact absurd hsorted (by decide)
      · rcases h2 with h2 | h2
        · rw [← h1, ← h2]
        · rw [← h1] at h2; exact absurd h2 (by decide)

/-- C7, amended: let the store list rows of equal `created_at` in any order.
For a limit that parses to a natural number `n` below `2 ^ 53`, the handler answers with
the reverse of the store's result; the answer has `min n k` rows, `k` being the number of
matching rows (at most `n`, all of them when there are fewer); every row belongs to the
group; the rows are in ascending order of `created_at`, equal timestamps allowed, and
strictly ascending when no two matching rows share a timestamp; the rows left out are
matching rows no newer than any row returned; when each message has exactly one `users`
row the matching rows are the stored messages of the group; and when `created_at` grows
strictly along the table the answer is the last `min n k` matching rows in table order.
A limit that is not a finite number, is negative, or is `2 ^ 64` or more is answered with
the error body. -/
theorem history_is_recent_tail (scan : List HistoryRow → List HistoryRow)
    (hscan : ∀ l, (scan l).Perm l) (db : Db) (groupId : Nat) (limit : LimitParam) :
    (∀ n : Nat, parseLimit limit = some (n : Int) → n < 2 ^ 53 →
      ∃ rows rest : List HistoryRow,
        get_messages db none scan groupId limit = .ok rows ∧
        selectMessages db none scan groupId (parseLimit limit) = .ok rows.reverse ∧
        rows.length = min n (matchingRows db groupId).length ∧
        (∀ r ∈ rows, r.group_id = groupId) ∧
        rows.Pairwise (fun a b => a.created_at ≤ b.created_at) ∧
        ((matchingRows db groupId).Pairwise (fun a b => a.created_at ≠ b.created_at) →
          rows.Pairwise (fun a b => a.created_at < b.created_at)) ∧
        (rows ++ rest).Perm (matchingRows db groupId) ∧
        (∀ x ∈ rest, ∀ y ∈ rows, x.created_at ≤ y.created_at) ∧
        ((∀ m ∈ db.messages, (db.users.filter (fun u => m.user_id == u.id)).length = 1) →
          (matchingRows db groupId).map HistoryRow.messageRow =
            db.messages.filter (fun m => m.group_id == groupId)) ∧
        ((matchingRows db groupId).Pairwise (fun a b => a.created_at < b.created_at) →
          rows = (matchingRows db groupId).drop ((matchingRows db groupId).length - n))) ∧
    ((parseLimit limit = none ∨
        ∃ m : Int, parseLimit limit = some m ∧ (m < 0 ∨ 2 ^ 64 ≤ m)) →
      ∃ e, get_messages db none scan groupId limit = .error e) := by
  refine ⟨fun n h hn53 => ?_, get_messages_rejected scan db groupId limit⟩
  have hn : n < 2 ^ 64 := lt_trans hn53 (by norm_num)
  obtain ⟨hsel, hget⟩ := get_messages_eq scan db groupId limit n h hn
  obtain ⟨hperm, hsorted⟩ := ordered_rows_spec scan hscan db groupId
  generalize (scan (matchingRows db groupId)).insertionSort newerOrSame = L at *
  have hsplit : L.take n ++ L.drop n = L := List.take_append_drop n L
  have hpw : (L.take n ++ L.drop n).Pairwise newerOrSame := by rw [hsplit]; exact hsorted
  obtain ⟨htake, _, hcross⟩ := List.pairwise_append.mp hpw
  refine ⟨(L.take n).reverse, L.drop n, hget, ?_, ?_, ?_, ?_, ?_, ?_, ?_, ?_, ?_⟩
  · rw [List.reverse_reverse]; exact hsel
  · rw [List.length_reverse, List.length_take, hperm.length_eq]
  · intro r hr
    have hmem : r ∈ matchingRows db groupId :=
      hperm.subset ((List.take_sublist n L).subset (List.mem_reverse.mp hr))
    unfold matchingRows at hmem
    simpa using (List.mem_filter.mp hmem).2
  · rw [List.pairwise_reverse]
    exact htake
  · intro hdistinct
    have hneL : L.Pairwise (fun a b => a.created_at ≠ b.created_at) :=
      (hperm.pairwise_iff (fun hxy => Ne.symm hxy)).mpr hdistinct
    have hboth := (hsorted.and hneL).sublist (List.take_sublist n L)
    rw [List.pairwise_reverse]
    exact hboth.imp (fun hab => Nat.lt_of_le_of_ne hab.1 (Ne.symm hab.2))
  · have hp1 : ((L.take n).reverse ++ L.drop n).Perm (L.take n ++ L.drop n) :=
      List.Perm.append_right _ (List.reverse_perm _)
    rw [hsplit] at hp1
    exact hp1.trans hperm
  · intro x hx y hy
    exact hcross y (List.mem_reverse.mp hy) x hx
  · exact matchingRows_messages db groupId
  · intro hgrow
    have hneM : (matchingRows db groupId).Pairwise
        (fun a b => a.created_at ≠ b.created_at) := hgrow.imp (fun hab => Nat.ne_of_lt hab)
    have hneL : L.Pairwise (fun a b => a.created_at ≠ b.created_at) :=
      (hperm.pairwise_iff (fun hxy => Ne.symm hxy)).mpr hneM
    have hL : L.Pairwise (fun a b => b.created_at < a.created_at) :=
      (hsorted.and hneL).imp (fun hab => Nat.lt_of_le_of_ne hab.1 (Ne.symm hab.2))
    have hR : (matchingRows db groupId).reverse.Pairwise
        (fun a b => b.created_at < a.created_at) := List.pairwise_reverse.mpr hgrow
    haveI : IsAntisymm HistoryRow (fun a b => b.created_at < a.created_at) :=
      ⟨fun _ _ h1 h2 => absurd h1 (Nat.lt_asymm h2)⟩
    have hEq : L = (matchingRows db groupId).reverse :=
      List.eq_of_perm_of_sorted (hperm.trans (List.reverse_perm _).symm) hL hR
    rw [hEq, List.take_reverse, List.reverse_reverse]

/-- Witness for `history_is_recent_tail`: the two newest rows of group 1 in `dbHistory`,
the store visiting the table backwards, and the same request with limit -1. -/
theorem history_is_recent_tail_witness :
    (∃ rows rest : List HistoryRow,
      get_messages dbHistory none List.reverse 1 (LimitParam.text (some 2)) = .ok rows ∧
      selectMessages dbHistory none List.reverse 1 (parseLimit (LimitParam.text (some 2)))
        = .ok rows.reverse ∧
      rows.length = min 2 (matchingRows dbHistory 1).length ∧
      (∀ r ∈ rows, r.group_id = 1) ∧
      rows.Pairwise (fun a b => a.created_at ≤ b.created_at) ∧
      ((matchingRows dbHistory 1).Pairwise (fun a b => a.created_at ≠ b.created_at) →
        rows.Pairwise (fun a b => a.created_at < b.created_at)) ∧
      (rows ++ rest).Perm (matchingRows dbHistory 1) ∧
      (∀ x ∈ rest, ∀ y ∈ rows, x.created_at ≤ y.created_at) ∧
      ((∀ m ∈ dbHistory.messages,
          (dbHistory.users.filter (fun u => m.user_id == u.id)).length = 1) →
        (matchingRows dbHistory 1).map HistoryRow.messageRow =
          dbHistory.messages.filter (fun m => m.group_id == 1)) ∧
      ((matchingRows dbHistory 1).Pairwise (fun a b => a.created_at < b.created_at) →
        rows = (matchingRows dbHistory 1).drop ((matchingRows dbHistory 1).length - 2))) ∧
    ∃ e, get_messages dbHistory none List.reverse 1 (LimitParam.text (some (-1)))
      = .error e :=
  ⟨(history_is_recent_tail List.reverse (fun l => List.reverse_perm l) dbHistory 1
      (LimitParam.text (some 2))).1 2 rfl (by norm_num),
   (history_is_recent_tail List.reverse (fun l => List.reverse_perm l) dbHistory 1
      (LimitParam.text (some (-1)))).2 (Or.inr ⟨-1, rfl, Or.inl (by decide)⟩)⟩


/-! ## C9: the order of broadcasts under interleaving -/

theorem run_append (s : Server) (es1 es2 : List Event) :
    run s (es1 ++ es2) = (run s es1).bind (fun s1 => run s1 es2) := by
  induction es1 generalizing s with
  | nil => rfl
  | cons e rest ih =>
    simp only [List.cons_append, run]
    cases step s e with
    | none => rfl
    | some s1 => exact ih s1

/-- Every turn of the event loop only appends to the list of issued events and to the list
of deliveries. -/
theorem step_appends {s s1 : Server} {e : Event} (h : step s e = some s1) :
    (∃ l, s1.emits = s.emits ++ l) ∧ (∃ d, s1.delivered = s.delivered ++ d) := by
  cases e with
  | join_group socket groupId =>
    simp only [step] at h
    split at h <;> (simp only [Option.some.injEq] at h; subst h; exact ⟨⟨[], by simp⟩, ⟨[], by simp⟩⟩)
  | disconnect socket =>
    simp only [step, Option.some.injEq] at h
    subst h
    exact ⟨⟨[], by simp⟩, ⟨[], by simp⟩⟩
  | receive socket data =>
    simp only [step, Option.some.injEq] at h
    subst h
    exact ⟨⟨[], by simp⟩, ⟨[], by simp⟩⟩
  | insertSettled task fault ts =>
    simp only [step] at h
    split at h
    · split at h
      · simp only [Option.some.injEq] at h
        subst h
        exact ⟨⟨_, rfl⟩, ⟨_, rfl⟩⟩
      · simp only [Option.some.injEq] at h
        subst h
        exact ⟨⟨[], by simp⟩, ⟨[], by simp⟩⟩
    · cases h
  | lookupSettled task fault date =>
    simp only [step] at h
    split at h
    · simp only [Option.some.injEq] at h
      subst h
      exact ⟨⟨_, rfl⟩, ⟨_, rfl⟩⟩
    · cases h

theorem run_appends {s s1 : Server} {es : List Event} (h : run s es = some s1) :
    (∃ l, s1.emits = s.emits ++ l) ∧ (∃ d, s1.delivered = s.delivered ++ d) := by
  induction es generalizing s with
  | nil =>
    simp only [run, Option.some.injEq] at h
    subst h
    exact ⟨⟨[], by simp⟩, ⟨[], by simp⟩⟩
  | cons e rest ih =>
    simp only [run] at h
    cases hs : step s e with
    | none => rw [hs] at h; cases h
    | some s2 =>
      rw [hs] at h
      obtain ⟨⟨l1, hl1⟩, ⟨d1, hd1⟩⟩ := step_appends hs
      obtain ⟨⟨l2, hl2⟩, ⟨d2, hd2⟩⟩ := ih h
      exact ⟨⟨l1 ++ l2, by rw [hl2, hl1, List.append_assoc]⟩,
        ⟨d1 ++ d2, by rw [hd2, hd1, List.append_assoc]⟩⟩

/-- When a sender lookup settles, the run issues its closing events at once. -/
theorem step_lookupSettled {s s1 : Server} {task : Nat} {fault : Option String} {date : Nat}
    (h : step s (Event.lookupSettled task fault date) = some s1) :
    s1.emits = s.emits ++ tailEmits s task fault date ∧
      s1.delivered = s.delivered ++ (tailEmits s task fault date).flatMap (deliver s.rooms) := by
  simp only [step] at h
  split at h
  · simp only [Option.some.injEq] at h
    subst h
    exact ⟨rfl, rfl⟩
  · cases h

theorem run_cons_split {s s2 : Server} {pre : List Event} {e : Event} {post : List Event}
    (h : run s (pre ++ e :: post) = some s2) :
    ∃ sa sa1, run s pre = some sa ∧ step sa e = some sa1 ∧ run sa1 post = some s2 := by
  rw [run_append] at h
  cases hp : run s pre with
  | none => rw [hp] at h; cases h
  | some sa =>
    rw [hp] at h
    simp only [Option.bind, run] at h
    cases hs : step sa e with
    | none => rw [hs] at h; cases h
    | some sa1 =>
      rw [hs] at h
      exact ⟨sa, sa1, rfl, hs, h⟩

/-- C9, as stated, fails: in the schedule `overtaking` the insert of the first send has
settled (its run waits for the lookup, the second send has not arrived) before the second
send begins; the rows are stored with ids 1 and 2 in that order, yet the broadcast of
row 2 is issued first, and the subscriber, connection 9, receives row 2 before row 1. -/
theorem second_send_overtakes_first :
    (∃ s3, run (Server.start dbPlain) (overtaking.take 3) = some s3 ∧
      s3.tasks.map (fun t => t.pc) = [Pc.awaitLookup 1] ∧
      s3.db.messages.map (fun m => m.id) = [1]) ∧
    ∃ s, run (Server.start dbPlain) overtaking = some s ∧
      s.db.messages.map (fun m => m.id) = [1, 2] ∧
      broadcastIds s.emits = [2, 1] ∧
      s.delivered.map (fun d => (d.1, broadcastIds [d.2])) = [(9, [2]), (9, [1])] :=
  ⟨⟨_, rfl, by decide, by decide⟩, ⟨_, rfl, by decide, by decide, by decide⟩⟩

/-- C9, amended: broadcasts are issued in the order in which the sender lookups settle.
In every schedule in which the lookup of run `a` settles before the lookup of run `b`,
the closing events of `a` stand before those of `b` in the list of issued events, and
their deliveries stand in the same order in the list of deliveries. -/
theorem broadcasts_in_lookup_order (s0 : Server) (pre mid post : List Event) (a b : Nat)
    (fa fb : Option String) (da db : Nat) (s : Server)
    (h : run s0 (pre ++ Event.lookupSettled a fa da ::
      (mid ++ Event.lookupSettled b fb db :: post)) = some s) :
    ∃ (sa sb : Server) (l2 l3 : List Emit) (d2 d3 : List (Nat × Emit)),
      run s0 pre = some sa ∧
      run s0 (pre ++ Event.lookupSettled a fa da :: mid) = some sb ∧
      s.emits = sa.emits ++ tailEmits sa a fa da ++ l2 ++ tailEmits sb b fb db ++ l3 ∧
      s.delivered = sa.delivered ++ (tailEmits sa a fa da).flatMap (deliver sa.rooms) ++ d2
        ++ (tailEmits sb b fb db).flatMap (deliver sb.rooms) ++ d3 := by
  obtain ⟨sa, sa1, hpre, hstepa, hrest⟩ := run_cons_split h
  obtain ⟨sb, sb1, hmid, hstepb, hpost⟩ := run_cons_split hrest
  obtain ⟨hea, hda⟩ := step_lookupSettled hstepa
  obtain ⟨heb, hdb⟩ := step_lookupSettled hstepb
  obtain ⟨⟨l2, hl2⟩, ⟨d2, hd2⟩⟩ := run_appends hmid
  obtain ⟨⟨l3, hl3⟩, ⟨d3, hd3⟩⟩ := run_appends hpost
  refine ⟨sa, sb, l2, l3, d2, d3, hpre, ?_, ?_, ?_⟩
  · rw [run_append, hpre]
    simp only [Option.bind, run, hstepa]
    exact hmid
  · rw [hl3, heb, hl2, hea]
  · rw [hd3, hdb, hd2, hda]

/-- Witness for `broadcasts_in_lookup_order`: the schedule `overtaking`, in which the lookup
of run 1 settles before the lookup of run 0. -/
theorem broadcasts_in_lookup_order_witness :
    ∃ (s sa sb : Server) (l2 l3 : List Emit) (d2 d3 : List (Nat × Emit)),
      run (Server.start dbPlain) overtaking = some s ∧
      run (Server.start dbPlain) (overtaking.take 5) = some sa ∧
      run (Server.start dbPlain)
        (overtaking.take 5 ++ Event.lookupSettled 1 none 1000001 :: []) = some sb ∧
      s.emits = sa.emits ++ tailEmits sa 1 none 1000001 ++ l2
        ++ tailEmits sb 0 none 1000002 ++ l3 ∧
      s.delivered = sa.delivered ++ (tailEmits sa 1 none 1000001).flatMap (deliver sa.rooms)
        ++ d2 ++ (tailEmits sb 0 none 1000002).flatMap (deliver sb.rooms) ++ d3 :=
  have hrun : run (Server.start dbPlain) overtaking =
      some ((run (Server.start dbPlain) overtaking).getD (Server.start dbPlain)) := by decide
  let ⟨sa, sb, l2, l3, d2, d3, h1, h2, h3, h4⟩ :=
    broadcasts_in_lookup_order (Server.start dbPlain) (overtaking.take 5) [] []
      1 0 none none 1000001 1000002 _ hrun
  ⟨_, sa, sb, l2, l3, d2, d3, hrun, h1, h2, h3, h4⟩

end Samvad
